import Mathlib

/-!
Verification development for the K4 tax-report generator.

The Python sources (`k4_script.py`, `sru_generator.py`) are shallowly
embedded below.  Monetary values after currency conversion are integers
(`ℤ`); raw CSV decimal values and the broker-reported PnL column are exact
rationals (`ℚ`).  Pandas data frames become Lean lists of records, kept in
table order; boolean column masks become `List.filter`.

Because `Rat.add`, `Rat.mul` and `Rat.sub` are irreducible in this
toolchain, the embedding uses the kernel-computable equivalents `qadd`,
`qmul`, `qsub` defined via `mkRat`; the lemmas `qadd_eq`, `qmul_eq`,
`qsub_eq` prove that they are exactly rational addition, multiplication
and subtraction.
-/

/-! ### Generic computable helpers -/

/-- Does the character list start with the given pattern? -/
def charsBeginWith : List Char → List Char → Bool
  | [], _ => true
  | _ :: _, [] => false
  | p :: ps, c :: cs => p == c && charsBeginWith ps cs

/-- Does the character list contain the pattern as a contiguous run? -/
def charsContain : List Char → List Char → Bool
  | pat, [] => charsBeginWith pat []
  | pat, c :: rest => charsBeginWith pat (c :: rest) || charsContain pat rest

/-- `contains_code note_str code` models Python `code in str(note_str)`
(substring containment; after `load_trades` the Notes/Codes column is a
string, never NaN).  The regex patterns `'Ex'` and `'A'` used with
`str.contains` have no metacharacters, so they are substring tests too. -/
def contains_code (note_str code : String) : Bool :=
  charsContain code.toList note_str.toList

/-- Models Python `str.endswith`, computed on character lists so that it
reduces in the kernel. -/
def strEndsWith (s suffix : String) : Bool :=
  charsBeginWith suffix.toList.reverse s.toList.reverse

/-- Kernel-computable rational multiplication (see module docstring). -/
def qmul (x y : ℚ) : ℚ := mkRat (x.num * y.num) (x.den * y.den)

/-- Kernel-computable rational addition. -/
def qadd (x y : ℚ) : ℚ := mkRat (x.num * (y.den : ℤ) + (x.den : ℤ) * y.num) (x.den * y.den)

/-- Kernel-computable rational subtraction. -/
def qsub (x y : ℚ) : ℚ := mkRat (x.num * (y.den : ℤ) - (x.den : ℤ) * y.num) (x.den * y.den)

/-- Kernel-computable sum of a list of rationals. -/
def qsum (l : List ℚ) : ℚ := l.foldr qadd 0

/-- Kernel-computable absolute value on `ℚ`, models pandas `.abs()`. -/
def ratAbs (x : ℚ) : ℚ := if x < 0 then -x else x

/-- Round a rational to the nearest integer, ties to even: the rounding
used by pandas `.round()` (numpy round-half-to-even).  Computed from the
numerator and denominator so that it reduces in the kernel:
for `x = n/d` (`d > 0`), `q = ⌊x⌋` and `r` is the nonnegative remainder,
so the fractional part of `x` is `r/d`. -/
def roundHalfEven (x : ℚ) : ℤ :=
  let q := x.num.ediv (x.den : ℤ)
  let r := x.num.emod (x.den : ℤ)
  if 2 * r < (x.den : ℤ) then q
  else if (x.den : ℤ) < 2 * r then q + 1
  else if q % 2 = 0 then q else q + 1

/-- Python `round(x, 2)`: round half-to-even at two decimal places. -/
def round2 (x : ℚ) : ℚ := mkRat (roundHalfEven (qmul x 100)) 100

/-- First-occurrence deduplication (pandas `.unique()` keeps the first
occurrence of each value), with an accumulator of already-seen values. -/
def dedupFirstAux {α : Type} [DecidableEq α] : List α → List α → List α
  | [], _ => []
  | a :: rest, seen =>
    if a ∈ seen then dedupFirstAux rest seen else a :: dedupFirstAux rest (a :: seen)

/-- First-occurrence deduplication of a list. -/
def dedupFirst {α : Type} [DecidableEq α] (l : List α) : List α := dedupFirstAux l []

/-- Decidability of list membership from decidable equality (kept
kernel-reducible so that concrete membership facts evaluate). -/
def decMemList {α : Type} [DecidableEq α] (a : α) : (l : List α) → Decidable (a ∈ l)
  | [] => isFalse (by simp)
  | b :: t =>
    match decEq a b with
    | isTrue h => isTrue (by simp [h])
    | isFalse hn =>
      match decMemList a t with
      | isTrue ht => isTrue (List.mem_cons_of_mem _ ht)
      | isFalse hf => isFalse (by simp [hn, hf])

instance {α : Type} [DecidableEq α] (a : α) (l : List α) : Decidable (a ∈ l) :=
  decMemList a l

/-! ### §k4_script.py — data model -/

/-- One row of the converted trade table (`trades_sek` in `main`): the
columns consumed by `process_trades` and the exercise/assignment matcher.
After `convert_to_sek`, `CostBasis`, `Proceeds` and `Commission` are
integers and `IBKRPnL` is a real number; after `load_trades`, the text
columns are strings with NaN replaced by `''`. -/
structure Trade where
  tradeDate : Nat
  symbol : String
  underlyingSymbol : String
  assetClass : String
  buySell : String
  description : String
  notesCodes : String
  quantity : ℤ
  costBasis : ℤ
  proceeds : ℤ
  commission : ℤ
  ibkrPnL : ℚ
deriving DecidableEq, Repr

/-- `TradeResult` data class of `k4_script.py`. -/
structure TradeResult where
  antal : ℤ
  beteckning : String
  symbol : String
  forsaljningspris : ℤ
  omkostnadsbelopp : ℤ
  vinst : ℤ
  forlust : ℤ
  ibkr_pnl : ℚ
  diff_vs_ibkr : ℚ
deriving DecidableEq, Repr

/-- `is_put_option`: `' P ' in description or description.endswith(' P')`. -/
def is_put_option (description : String) : Bool :=
  contains_code description " P " || strEndsWith description " P"

/-- Membership in `exercise_assigned_set` of `process_trades`
(line 380: `Notes/Codes` contains the regex `'Ex|A'`, i.e. contains
`"Ex"` or contains `"A"`).  The set of row indices is modelled as a
predicate on rows; the data frame keeps one row per index. -/
def exercise_assigned (t : Trade) : Bool :=
  contains_code t.notesCodes "Ex" || contains_code t.notesCodes "A"

/-- `create_result_entry`: build a `TradeResult` from a row and the two
computed amounts.  `Antal` and `Beteckning` were set by `process_trades`
as `abs(Quantity)` and `Description`. -/
def create_result_entry (row : Trade) (forsaljningspris omkostnadsbelopp : ℤ) : TradeResult :=
  let net_pnl := forsaljningspris - omkostnadsbelopp
  { antal := |row.quantity|
    beteckning := row.description
    symbol := row.symbol
    forsaljningspris := forsaljningspris
    omkostnadsbelopp := omkostnadsbelopp
    vinst := max 0 net_pnl
    forlust := max 0 (-net_pnl)
    ibkr_pnl := row.ibkrPnL
    diff_vs_ibkr := round2 (qsub (net_pnl : ℚ) row.ibkrPnL) }

/-- `process_standard_trade`. -/
def process_standard_trade (row : Trade) : TradeResult :=
  if row.buySell == "SELL" then
    create_result_entry row row.proceeds (|row.costBasis| + row.commission)
  else
    create_result_entry row (|row.costBasis|) (|row.proceeds| + row.commission)

/-- `find_related_options`: same trade date, asset class `OPT`, and member
of the exercise/assignment set.  Note: no restriction on the underlying
symbol. -/
def find_related_options (df : List Trade) (date : Nat) (eaSet : Trade → Bool) : List Trade :=
  df.filter fun t => (t.tradeDate == date) && (t.assetClass == "OPT") && eaSet t

/-- `handle_long_call_exercise` (BUY stock, SELL option with `Ex`).  The
intermediate frame `exercised_calls` is the match scrutinee;
`.iloc[0]` is the head of the filtered list. -/
def handle_long_call_exercise (row : Trade) (related_options : List Trade) : TradeResult :=
  match related_options.filter (fun o =>
      (o.buySell == "SELL") && contains_code o.notesCodes "Ex" && !(is_put_option o.description)) with
  | opt :: _ =>
    create_result_entry row row.costBasis (|row.proceeds| + |opt.costBasis| + row.commission)
  | [] =>
    create_result_entry row row.proceeds (|row.costBasis| + row.commission)

/-- `handle_long_put_exercise` (SELL stock, SELL option with `Ex`). -/
def handle_long_put_exercise (row : Trade) (related_options : List Trade) : TradeResult :=
  match related_options.filter (fun o =>
      (o.buySell == "SELL") && contains_code o.notesCodes "Ex" && is_put_option o.description) with
  | opt :: _ =>
    create_result_entry row row.proceeds (|row.costBasis| + |opt.costBasis| + row.commission)
  | [] =>
    create_result_entry row row.proceeds (|row.costBasis| + row.commission)

/-- `handle_short_call_assignment` (SELL stock, BUY option with `A`); the
option premium is used with its sign. -/
def handle_short_call_assignment (row : Trade) (related_options : List Trade) : TradeResult :=
  match related_options.filter (fun o =>
      (o.buySell == "BUY") && contains_code o.notesCodes "A" && !(is_put_option o.description)) with
  | opt :: _ =>
    create_result_entry row row.proceeds (|row.costBasis| - opt.costBasis + row.commission)
  | [] =>
    create_result_entry row row.proceeds (|row.costBasis| + row.commission)

/-- `handle_short_put_assignment` (BUY stock, BUY option with `A`). -/
def handle_short_put_assignment (row : Trade) (related_options : List Trade) : TradeResult :=
  match related_options.filter (fun o =>
      (o.buySell == "BUY") && contains_code o.notesCodes "A" && is_put_option o.description) with
  | opt :: _ =>
    create_result_entry row row.costBasis (|row.proceeds| - opt.costBasis + row.commission)
  | [] =>
    create_result_entry row row.proceeds (|row.costBasis| + row.commission)

/-- `process_exercise_assignment`: dispatch on side and code of the stock
delivery, passing the related options found on the same trade date. -/
def process_exercise_assignment (row : Trade) (df : List Trade) (eaSet : Trade → Bool) :
    TradeResult :=
  let related_options := find_related_options df row.tradeDate eaSet
  if row.buySell == "BUY" && contains_code row.notesCodes "Ex" then
    handle_long_call_exercise row related_options
  else if row.buySell == "SELL" && contains_code row.notesCodes "Ex" then
    handle_long_put_exercise row related_options
  else if row.buySell == "SELL" && contains_code row.notesCodes "A" then
    handle_short_call_assignment row related_options
  else if row.buySell == "BUY" && contains_code row.notesCodes "A" then
    handle_short_put_assignment row related_options
  else
    process_standard_trade row

/-- Candidate set as the specification describes it: the trades of the
table with the same trade date AND the same underlying symbol as the
stock delivery that are option legs carrying an exercise/assignment code.
This follows the spec text, for comparison with `find_related_options`. -/
def specSameDateSameUnderlyingCandidates (df : List Trade) (date : Nat) (und : String) :
    List Trade :=
  df.filter fun t =>
    (t.tradeDate == date) && (t.underlyingSymbol == und) && (t.assetClass == "OPT") &&
      exercise_assigned t

/-! ### §k4_script.py — `convert_to_sek` -/

/-- One raw trade row as far as `convert_to_sek` reads it: the currency
code and the four monetary columns, exact decimals from the CSV. -/
structure RawTrade where
  currencyPrimary : String
  ibCommission : ℚ
  costBasis : ℚ
  proceeds : ℚ
  fifoPnlRealized : ℚ
deriving DecidableEq

/-- A row after conversion: the three integer columns written by
`convert_to_sek` plus the re-derived `IBKRPnL`. -/
structure ConvTrade where
  commission : ℤ
  costBasis : ℤ
  proceeds : ℤ
  ibkrPnL : ℚ
deriving DecidableEq

/-- `CurrencyPrimary.map(fx_rates)`: dictionary lookup, `none` for a
missing key (pandas NaN). -/
def fxLookup (fx_rates : List (String × ℚ)) (c : String) : Option ℚ :=
  (fx_rates.find? fun p => p.1 == c).map Prod.snd

/-- The distinct currency codes with no FX rate, in first-appearance
order: `result_df[result_df['FX'].isna()]['CurrencyPrimary'].unique()`. -/
def missingCurrencies (df : List RawTrade) (fx_rates : List (String × ℚ)) : List String :=
  dedupFirst ((df.filter fun t => (fxLookup fx_rates t.currencyPrimary).isNone).map
    fun t => t.currencyPrimary)

/-- Per-row conversion: commission from the absolute value, cost basis and
proceeds with their sign, all rounded half-to-even to integers; the PnL
is multiplied by the rate with no rounding. -/
def convertRow (fx : ℚ) (t : RawTrade) : ConvTrade :=
  { commission := roundHalfEven (qmul (ratAbs t.ibCommission) fx)
    costBasis := roundHalfEven (qmul t.costBasis fx)
    proceeds := roundHalfEven (qmul t.proceeds fx)
    ibkrPnL := qmul t.fifoPnlRealized fx }

/-- `convert_to_sek`: raising `ValueError` on missing rates becomes the
`Except.error` branch carrying the enumerated missing codes.  In the `ok`
branch every lookup succeeds, so the `getD 0` default is never read. -/
def convert_to_sek (df : List RawTrade) (fx_rates : List (String × ℚ)) :
    Except (List String) (List ConvTrade) :=
  let missing := missingCurrencies df fx_rates
  if missing = [] then
    Except.ok (df.map fun t => convertRow ((fxLookup fx_rates t.currencyPrimary).getD 0) t)
  else
    Except.error missing

/-! ### §k4_script.py — `group_partial_executions` -/

/-- One row of the processed result table (`processed_df`): the
`TradeResult` columns plus the `BuySell`, `TradeDate` and `Notes/Codes`
columns attached by `process_trades`, and the `GroupInfo` column (absent,
i.e. `none`, before grouping). -/
structure KRow where
  buySell : String
  tradeDate : Nat
  beteckning : String
  notesCodes : String
  antal : ℤ
  forsaljningspris : ℤ
  omkostnadsbelopp : ℤ
  vinst : ℤ
  forlust : ℤ
  ibkrPnL : ℚ
  diffVsIbkr : ℚ
  groupInfo : Option String
deriving DecidableEq, Inhabited, Repr

/-- Does the row's `Notes/Codes` contain `'P'`? -/
def hasP (r : KRow) : Bool := contains_code r.notesCodes "P"

/-- The `GroupKey` of a row at position `i`: rows with `'P'` get the key
`f"{BuySell}_{TradeDate}_{Beteckning}"`, other rows the unique key
`f"single_{row.name}"`.  The two key families are modelled structurally
(`Sum.inl` of the triple vs `Sum.inr` of the index); the Python string
encodings coincide with this because `BuySell` is `'BUY'`/`'SELL'`/`''`,
which never produces a `single_`-shaped or separator-ambiguous key. -/
def gKey (i : Nat) (r : KRow) : (String × Nat × String) ⊕ Nat :=
  if hasP r then Sum.inl (r.buySell, r.tradeDate, r.beteckning) else Sum.inr i

/-- Rows of the table paired with their `GroupKey`. -/
def keyedRows (rows : List KRow) : List (((String × Nat × String) ⊕ Nat) × KRow) :=
  rows.enum.map fun p => (gKey p.1 p.2, p.2)

/-- The `GroupKey` column. -/
def keyList (rows : List KRow) : List ((String × Nat × String) ⊕ Nat) :=
  (keyedRows rows).map Prod.fst

/-- `multi_entry_groups`: keys occurring more than once
(`value_counts()[counts > 1]`), in first-appearance order.  (The
`value_counts` ordering of the merged groups among themselves is not part
of any claim and is modelled as first-appearance order.) -/
def multiEntryKeys (rows : List KRow) : List ((String × Nat × String) ⊕ Nat) :=
  (dedupFirst (keyList rows)).filter fun k => 1 < (keyList rows).countP fun x => decide (x = k)

/-- All rows of a key's group, in table order. -/
def groupMembers (rows : List KRow) (k : (String × Nat × String) ⊕ Nat) : List KRow :=
  ((keyedRows rows).filter fun p => decide (p.1 = k)).map Prod.snd

/-- `combined_row`: the group's first row with the seven numeric fields
replaced by group sums and the `GroupInfo` annotation attached. -/
def mergeGroup : List KRow → KRow
  | [] => default
  | first :: rest =>
    { first with
      antal := (((first :: rest).map fun r => r.antal)).sum
      forsaljningspris := (((first :: rest).map fun r => r.forsaljningspris)).sum
      omkostnadsbelopp := (((first :: rest).map fun r => r.omkostnadsbelopp)).sum
      vinst := (((first :: rest).map fun r => r.vinst)).sum
      forlust := (((first :: rest).map fun r => r.forlust)).sum
      ibkrPnL := qsum ((first :: rest).map fun r => r.ibkrPnL)
      diffVsIbkr := qsum ((first :: rest).map fun r => r.diffVsIbkr)
      groupInfo := some ("Grouped " ++ toString (first :: rest).length ++ " partial executions") }

/-- `group_partial_executions`: if no row carries `'P'` the table is
returned unchanged; otherwise the rows whose key is not shared pass
through in table order, followed by one merged row per multi-entry key. -/
def groupPartialExecutions (rows : List KRow) : List KRow :=
  if rows.all (fun r => !(hasP r)) then rows
  else
    (((keyedRows rows).filter fun p => decide (p.1 ∉ multiEntryKeys rows)).map Prod.snd)
      ++ ((multiEntryKeys rows).map fun k => mergeGroup (groupMembers rows k))

/-! ### §sru_generator.py — `generate_blankett_sru_file`

The generator's output is modelled as a list of structured lines instead
of raw text: a tag string such as `f"31{i}2"` becomes the constructor
`uppgiftRow 31 i 2 value` (section numeric prefix, per-row index, field
index), `f"#UPPGIFT 3300 v"` becomes `uppgiftSum 3300 v`, and so on.
Config validation and file I/O are outside the embedding; the three
personal strings the line stream actually uses are parameters. -/

/-- One line of `BLANKETTER.SRU`. -/
inductive SruLine where
  | blankett (inkomstar : String)
  | identitet (personnummer timestamp : String)
  | uppgiftRow (sectionPfx : Nat) (rowIndex : Nat) (fieldIndex : Nat) (value : String)
  | uppgiftSum (tag : Nat) (value : ℤ)
  | uppgiftBlankettNr (seq : Nat)
  | blankettSlut
  | filSlut
deriving DecidableEq, Repr

/-- One row of the result table as read by the SRU generator. -/
structure SruRow where
  symbol : String
  beteckning : String
  antal : ℤ
  forsaljningspris : ℤ
  omkostnadsbelopp : ℤ
  vinst : ℤ
  forlust : ℤ
deriving DecidableEq, Repr

def MAX_TRADES_PER_SECTION_A : Nat := 9

def MAX_TRADES_PER_SECTION_D : Nat := 7

def SECTION_D_INSTRUMENTS : List String :=
  ["BITW", "BTC", "ETH", "GBTC", "ETHE", "SOL", "DOT", "ADA"]

def TEST_LIMIT : Nat := 2000

/-- `result_data['Symbol'].isin(SECTION_D_INSTRUMENTS)`. -/
def isSectionD (r : SruRow) : Bool := SECTION_D_INSTRUMENTS.contains r.symbol

/-- `section_d_data`: rows whose symbol is a designated instrument. -/
def sectionDData (data : List SruRow) : List SruRow := data.filter isSectionD

/-- `section_a_data`: all remaining rows. -/
def sectionAData (data : List SruRow) : List SruRow := data.filter fun r => !(isSectionD r)

/-- `num_blanketts`: `max(ceil(a/9), ceil(d/7), 1)` via integer ceiling
division `(n + k - 1) // k`. -/
def numBlanketts (totalA totalD : Nat) : Nat :=
  max (max ((totalA + MAX_TRADES_PER_SECTION_A - 1) / MAX_TRADES_PER_SECTION_A)
           ((totalD + MAX_TRADES_PER_SECTION_D - 1) / MAX_TRADES_PER_SECTION_D)) 1

/-- Truncation of the label to 80 characters. -/
def truncBeteckning (b : String) : String := if b.length > 80 then b.take 80 else b

/-- The six `#UPPGIFT` row lines per trade: the `enumerate` loop as a
recursion with a running index.  In the source the standard section
inlines this loop with index `i` (so `startIndex = 0`) and the designated
section with index `i+1` (so `startIndex = 1`). -/
def rowTagLines (pfx : Nat) (startIndex : Nat) : List SruRow → List SruLine
  | [] => []
  | r :: rest =>
    SruLine.uppgiftRow pfx startIndex 0 (toString r.antal) ::
    SruLine.uppgiftRow pfx startIndex 1 (truncBeteckning r.beteckning) ::
    SruLine.uppgiftRow pfx startIndex 2 (toString r.forsaljningspris) ::
    SruLine.uppgiftRow pfx startIndex 3 (toString r.omkostnadsbelopp) ::
    SruLine.uppgiftRow pfx startIndex 4 (toString r.vinst) ::
    SruLine.uppgiftRow pfx startIndex 5 (toString r.forlust) ::
    rowTagLines pfx (startIndex + 1) rest

/-- The four per-form subtotal lines of a section. -/
def sectionSubtotals (t0 t1 t2 t3 : Nat) (rows : List SruRow) : List SruLine :=
  [SruLine.uppgiftSum t0 ((rows.map fun r => r.forsaljningspris).sum),
   SruLine.uppgiftSum t1 ((rows.map fun r => r.omkostnadsbelopp).sum),
   SruLine.uppgiftSum t2 ((rows.map fun r => r.vinst).sum),
   SruLine.uppgiftSum t3 ((rows.map fun r => r.forlust).sum)]

/-- The lines contributed by blankett number `i`.  The slice
`iloc[i*cap : min((i+1)*cap, total)]` is `drop (i*cap)` then `take cap`.
A blankett with no data and index `> 0` contributes nothing (the source
appends the header and identity lines and then removes them again). -/
def blankettLines (inkomstar personnummer timestamp : String)
    (secA secD : List SruRow) (i : Nat) : List SruLine :=
  let sliceA := (secA.drop (i * MAX_TRADES_PER_SECTION_A)).take MAX_TRADES_PER_SECTION_A
  let sliceD := (secD.drop (i * MAX_TRADES_PER_SECTION_D)).take MAX_TRADES_PER_SECTION_D
  if (!sliceA.isEmpty || !sliceD.isEmpty) || i == 0 then
    [SruLine.blankett inkomstar, SruLine.identitet personnummer timestamp]
      ++ (if sliceA.isEmpty then []
          else rowTagLines 31 0 sliceA ++ sectionSubtotals 3300 3301 3304 3305 sliceA)
      ++ (if sliceD.isEmpty then []
          else rowTagLines 34 1 sliceD ++ sectionSubtotals 3500 3501 3503 3504 sliceD)
      ++ [SruLine.uppgiftBlankettNr (i + 1), SruLine.blankettSlut]
  else []

/-- `result_data.head(TEST_LIMIT)` applied when the table is too long. -/
def truncData (resultData : List SruRow) : List SruRow :=
  if resultData.length > TEST_LIMIT then resultData.take TEST_LIMIT else resultData

/-- The full line stream of `generate_blankett_sru_file` (the `sru_lines`
list, which the source then writes to disk verbatim). -/
def generate_blankett_sru_lines (inkomstar personnummer timestamp : String)
    (resultData : List SruRow) : List SruLine :=
  let data := truncData resultData
  let secA := sectionAData data
  let secD := sectionDData data
  ((List.range (numBlanketts secA.length secD.length)).flatMap
      (blankettLines inkomstar personnummer timestamp secA secD))
    ++ [SruLine.filSlut]

/-- Number of forms in a line stream: one `#BLANKETTSLUT` per form. -/
def numFormsEmitted (lines : List SruLine) : Nat :=
  lines.countP fun l => l == SruLine.blankettSlut

/-- The per-row tag indices carried by a section's row tags in a line
stream: the `rowIndex` of each `uppgiftRow` line of the given section
prefix at field 0 (each row emits exactly one field-0 tag). -/
def rowIndicesOf (pfx : Nat) (lines : List SruLine) : List Nat :=
  lines.filterMap fun l =>
    match l with
    | SruLine.uppgiftRow p i f _ => if p == pfx && f == 0 then some i else none
    | _ => none

/-! ### Concrete instances used by witnesses and counterexamples -/

deriving instance DecidableEq for Except

/-- A stock delivery flagged as an exercise (BUY stock with `Ex`),
underlying symbol `AAA`. -/
def exStock : Trade :=
  { tradeDate := 1, symbol := "AAA", underlyingSymbol := "AAA", assetClass := "STK",
    buySell := "BUY", description := "AAA", notesCodes := "Ex", quantity := 100,
    costBasis := 0, proceeds := -1000, commission := 0, ibkrPnL := 0 }

/-- An exercised option leg on the same date with a different underlying
symbol `BBB` (a call: its description does not mark a put). -/
def exOption : Trade :=
  { tradeDate := 1, symbol := "BBB DEC20 100 C", underlyingSymbol := "BBB",
    assetClass := "OPT", buySell := "SELL", description := "BBB DEC20 100 C",
    notesCodes := "Ex", quantity := -1, costBasis := -500, proceeds := 0,
    commission := 0, ibkrPnL := 0 }

/-- A BUY-side stock delivery flagged `Ex` with no matching option leg
anywhere in the table. -/
def buyExNoMatch : Trade :=
  { tradeDate := 2, symbol := "CCC", underlyingSymbol := "CCC", assetClass := "STK",
    buySell := "BUY", description := "CCC", notesCodes := "Ex", quantity := 10,
    costBasis := -50, proceeds := -1000, commission := 10, ibkrPnL := 0 }

/-- A raw USD trade with negative cost basis and a fractional PnL. -/
def rawUsd : RawTrade :=
  { currencyPrimary := "USD", ibCommission := mkRat (-3) 1, costBasis := mkRat (-100) 1,
    proceeds := mkRat 200 1, fifoPnlRealized := mkRat 111 1000 }

/-- An FX table holding only USD at 10.5. -/
def usdRates : List (String × ℚ) := [("USD", mkRat 21 2)]

/-- A partial execution that closed with a gain. -/
def pGain : KRow :=
  { buySell := "SELL", tradeDate := 1, beteckning := "XYZ", notesCodes := "P",
    antal := 1, forsaljningspris := 100, omkostnadsbelopp := 0, vinst := 100,
    forlust := 0, ibkrPnL := 0, diffVsIbkr := 0, groupInfo := none }

/-- A partial execution of the same instrument and day that closed with a
loss. -/
def pLoss : KRow :=
  { buySell := "SELL", tradeDate := 1, beteckning := "XYZ", notesCodes := "P",
    antal := 1, forsaljningspris := 0, omkostnadsbelopp := 50, vinst := 0,
    forlust := 50, ibkrPnL := 0, diffVsIbkr := 0, groupInfo := none }

/-- Same label and side as `pGain` but a different trade date. -/
def pOtherDate : KRow := { pGain with tradeDate := 2 }

/-- A standard-section (non-designated) result row. -/
def stdRow : SruRow :=
  { symbol := "AAPL", beteckning := "Apple Inc", antal := 10, forsaljningspris := 15000,
    omkostnadsbelopp := 12000, vinst := 3000, forlust := 0 }

/-! ### Generic helper lemmas -/

theorem mem_dedupFirstAux {α : Type} [DecidableEq α] (l : List α) (seen : List α) (x : α) :
    x ∈ dedupFirstAux l seen ↔ x ∈ l ∧ x ∉ seen := by
  induction l generalizing seen with
  | nil => simp [dedupFirstAux]
  | cons a rest ih =>
    rw [dedupFirstAux]
    by_cases ha : a ∈ seen
    · simp only [if_pos ha, ih, List.mem_cons]
      constructor
      · rintro ⟨h1, h2⟩
        exact ⟨Or.inr h1, h2⟩
      · rintro ⟨rfl | h1, h2⟩
        · exact absurd ha h2
        · exact ⟨h1, h2⟩
    · simp only [if_neg ha, List.mem_cons, ih]
      constructor
      · rintro (rfl | ⟨h1, h2⟩)
        · exact ⟨Or.inl rfl, ha⟩
        · have h2' : ¬(x = a ∨ x ∈ seen) := by simpa [List.mem_cons] using h2
          push_neg at h2'
          exact ⟨Or.inr h1, h2'.2⟩
      · rintro ⟨rfl | h1, h2⟩
        · exact Or.inl rfl
        · by_cases hxa : x = a
          · exact Or.inl hxa
          · exact Or.inr ⟨h1, by simp [List.mem_cons, hxa, h2]⟩

theorem mem_dedupFirst {α : Type} [DecidableEq α] (l : List α) (x : α) :
    x ∈ dedupFirst l ↔ x ∈ l := by
  simp [dedupFirst, mem_dedupFirstAux]

theorem filter_comp {α : Type} (l : List α) (p q : α → Bool) :
    (l.filter p).filter q = l.filter fun a => p a && q a := by
  induction l with
  | nil => rfl
  | cons a t ih => by_cases hp : p a <;> by_cases hq : q a <;> simp [List.filter_cons, hp, hq, ih]

theorem handlerFilterHead {β : Type} (l : List Trade) (p q : Trade → Bool)
    (f : Trade → β) (b : β) :
    (match (l.filter p).filter q with | o :: _ => f o | [] => b)
      = match (l.filter fun t => p t && q t).head? with | some o => f o | none => b := by
  rw [filter_comp]
  cases l.filter fun t => p t && q t <;> rfl

theorem qmul_eq (x y : ℚ) : qmul x y = x * y := by
  have hx : ((x.den : ℚ)) ≠ 0 := Nat.cast_ne_zero.mpr x.den_nz
  have hy : ((y.den : ℚ)) ≠ 0 := Nat.cast_ne_zero.mpr y.den_nz
  rw [qmul, Rat.mkRat_eq_div]
  push_cast
  rw [← div_mul_div_comm, Rat.num_div_den, Rat.num_div_den]

theorem qadd_eq (x y : ℚ) : qadd x y = x + y := by
  have hx : ((x.den : ℚ)) ≠ 0 := Nat.cast_ne_zero.mpr x.den_nz
  have hy : ((y.den : ℚ)) ≠ 0 := Nat.cast_ne_zero.mpr y.den_nz
  rw [qadd, Rat.mkRat_eq_div]
  push_cast
  rw [← div_add_div _ _ hx hy, Rat.num_div_den, Rat.num_div_den]

theorem qsub_eq (x y : ℚ) : qsub x y = x - y := by
  have hx : ((x.den : ℚ)) ≠ 0 := Nat.cast_ne_zero.mpr x.den_nz
  have hy : ((y.den : ℚ)) ≠ 0 := Nat.cast_ne_zero.mpr y.den_nz
  rw [qsub, Rat.mkRat_eq_div]
  push_cast
  rw [← div_sub_div _ _ hx hy, Rat.num_div_den, Rat.num_div_den]

theorem ratAbs_eq (x : ℚ) : ratAbs x = |x| := by
  rw [ratAbs]
  split
  · exact (abs_of_neg (by assumption)).symm
  · exact (abs_of_nonneg (le_of_not_lt (by assumption))).symm

/-! ### Claim C1 — option-leg candidate set and selection -/

/-- Claim C1 counterexample: the candidate set `find_related_options`
builds for the exercise-flagged stock delivery `exStock` (date 1,
underlying `AAA`) contains the option `exOption` with underlying `BBB`,
whereas the set described by the claim — same trade date AND same
underlying symbol — is empty here.  So the candidate set is not the
same-date-same-underlying set. -/
theorem C1_counterexample :
    find_related_options [exStock, exOption] 1 exercise_assigned = [exOption] ∧
    specSameDateSameUnderlyingCandidates [exStock, exOption] 1 exStock.underlyingSymbol = [] ∧
    exOption.underlyingSymbol ≠ exStock.underlyingSymbol ∧
    exStock.assetClass = "STK" ∧ exercise_assigned exStock = true ∧
    exStock.tradeDate = 1 ∧ exOption.tradeDate = 1 := by decide

/-- Claim C1 as amended: for each of the four scenarios, the handler
applied to the candidate set of the matcher (all same-date
exercise/assignment-flagged option legs, regardless of underlying
symbol) uses the FIRST row of the full table, in table order, that
satisfies the date/class/code filter together with the scenario's
side/right/code filter — and falls back when no such row exists. -/
theorem C1_first_match_in_table_order (df : List Trade) (row : Trade) :
    (handle_long_call_exercise row (find_related_options df row.tradeDate exercise_assigned) =
      match (df.filter fun t =>
          ((t.tradeDate == row.tradeDate) && (t.assetClass == "OPT") && exercise_assigned t) &&
            ((t.buySell == "SELL") && contains_code t.notesCodes "Ex" &&
              !(is_put_option t.description))).head? with
      | some opt =>
          create_result_entry row row.costBasis (|row.proceeds| + |opt.costBasis| + row.commission)
      | none => create_result_entry row row.proceeds (|row.costBasis| + row.commission)) ∧
    (handle_long_put_exercise row (find_related_options df row.tradeDate exercise_assigned) =
      match (df.filter fun t =>
          ((t.tradeDate == row.tradeDate) && (t.assetClass == "OPT") && exercise_assigned t) &&
            ((t.buySell == "SELL") && contains_code t.notesCodes "Ex" &&
              is_put_option t.description)).head? with
      | some opt =>
          create_result_entry row row.proceeds (|row.costBasis| + |opt.costBasis| + row.commission)
      | none => create_result_entry row row.proceeds (|row.costBasis| + row.commission)) ∧
    (handle_short_call_assignment row (find_related_options df row.tradeDate exercise_assigned) =
      match (df.filter fun t =>
          ((t.tradeDate == row.tradeDate) && (t.assetClass == "OPT") && exercise_assigned t) &&
            ((t.buySell == "BUY") && contains_code t.notesCodes "A" &&
              !(is_put_option t.description))).head? with
      | some opt =>
          create_result_entry row row.proceeds (|row.costBasis| - opt.costBasis + row.commission)
      | none => create_result_entry row row.proceeds (|row.costBasis| + row.commission)) ∧
    (handle_short_put_assignment row (find_related_options df row.tradeDate exercise_assigned) =
      match (df.filter fun t =>
          ((t.tradeDate == row.tradeDate) && (t.assetClass == "OPT") && exercise_assigned t) &&
            ((t.buySell == "BUY") && contains_code t.notesCodes "A" &&
              is_put_option t.description)).head? with
      | some opt =>
          create_result_entry row row.costBasis (|row.proceeds| - opt.costBasis + row.commission)
      | none => create_result_entry row row.proceeds (|row.costBasis| + row.commission)) := by
  refine ⟨?_, ?_, ?_, ?_⟩
  · simp only [handle_long_call_exercise, find_related_options]
    exact handlerFilterHead df _ _ _ _
  · simp only [handle_long_put_exercise, find_related_options]
    exact handlerFilterHead df _ _ _ _
  · simp only [handle_short_call_assignment, find_related_options]
    exact handlerFilterHead df _ _ _ _
  · simp only [handle_short_put_assignment, find_related_options]
    exact handlerFilterHead df _ _ _ _

/-! ### Claim C4 — fallback on match failure -/

/-- Claim C4 (code bug): for the BUY-side exercise-flagged stock delivery
`buyExNoMatch` (cost basis −50, proceeds −1000, commission 10) with no
matching option leg, the classifier's fallback does NOT equal the
standard-trade formula for that row: the fallback hard-codes the
sell-side formula (proceeds −1000 as sale price, |cost basis| +
commission = 60 as cost), while `process_standard_trade` on this BUY row
gives sale price |cost basis| = 50 and cost |proceeds| + commission =
1010. -/
theorem C4_fallback_uses_sell_formula :
    process_exercise_assignment buyExNoMatch [buyExNoMatch] exercise_assigned
        ≠ process_standard_trade buyExNoMatch ∧
      (process_exercise_assignment buyExNoMatch [buyExNoMatch] exercise_assigned).forsaljningspris
        = -1000 ∧
      (process_exercise_assignment buyExNoMatch [buyExNoMatch] exercise_assigned).omkostnadsbelopp
        = 60 ∧
      (process_standard_trade buyExNoMatch).forsaljningspris = 50 ∧
      (process_standard_trade buyExNoMatch).omkostnadsbelopp = 1010 ∧
      find_related_options [buyExNoMatch] buyExNoMatch.tradeDate exercise_assigned = [] := by
  decide

/-! ### Claim C5 — gain/loss invariant of the classifier -/

/-- Claim C5: every `TradeResult` built by `create_result_entry` (the
single constructor through which every classifier path produces its
result) satisfies `vinst − förlust = försäljningspris − omkostnadsbelopp`
and `min vinst förlust = 0`, for all integer proceeds and cost inputs. -/
theorem C5_gain_loss_invariant (row : Trade) (forsaljningspris omkostnadsbelopp : ℤ) :
    (create_result_entry row forsaljningspris omkostnadsbelopp).vinst
        - (create_result_entry row forsaljningspris omkostnadsbelopp).forlust
      = (create_result_entry row forsaljningspris omkostnadsbelopp).forsaljningspris
        - (create_result_entry row forsaljningspris omkostnadsbelopp).omkostnadsbelopp
    ∧ min (create_result_entry row forsaljningspris omkostnadsbelopp).vinst
        (create_result_entry row forsaljningspris omkostnadsbelopp).forlust = 0 := by
  simp only [create_result_entry]
  omega

/-! ### Claim C10 — aggregation breaks the min(gain, loss) = 0 invariant -/

/-- Claim C10: grouping the same-day, same-label, same-side partial
executions `pGain` (gain 100, loss 0) and `pLoss` (gain 0, loss 50) —
each of which satisfies `min vinst förlust = 0` — produces a merged row
whose gain and loss are the independent sums 100 and 50, both positive,
so the invariant is not preserved by aggregation. -/
theorem C10_merged_row_has_gain_and_loss :
    (∃ r ∈ groupPartialExecutions [pGain, pLoss],
        0 < r.vinst ∧ 0 < r.forlust ∧
          r.vinst = pGain.vinst + pLoss.vinst ∧ r.forlust = pGain.forlust + pLoss.forlust) ∧
      min pGain.vinst pGain.forlust = 0 ∧ min pLoss.vinst pLoss.forlust = 0 ∧
      pGain.beteckning = pLoss.beteckning ∧
      groupPartialExecutions [pGain, pLoss] = [mergeGroup [pGain, pLoss]] := by decide

/-! ### Grouping lemmas (for claim C3) -/

theorem keyList_eq (rows : List KRow) :
    keyList rows = rows.enum.map fun p => gKey p.1 p.2 := by
  simp [keyList, keyedRows, List.map_map, Function.comp]

theorem length_groupMembers (rows : List KRow) (k : (String × Nat × String) ⊕ Nat) :
    (groupMembers rows k).length = (keyList rows).countP fun x => decide (x = k) := by
  rw [groupMembers, List.length_map, ← List.countP_eq_length_filter, keyList, List.countP_map]
  rfl

theorem countP_inr_enumFrom_zero (rows : List KRow) (n i : Nat) (h : i < n) :
    ((rows.enumFrom n).map fun p => gKey p.1 p.2).countP
      (fun x => decide (x = Sum.inr i)) = 0 := by
  induction rows generalizing n with
  | nil => rfl
  | cons r rest ih =>
    rw [List.enumFrom_cons, List.map_cons, List.countP_cons]
    rw [ih (n + 1) (Nat.lt_succ_of_lt h)]
    have : gKey n r ≠ Sum.inr i := by
      rw [gKey]
      split
      · simp
      · simp
        omega
    simp [this]

/-- The unique keys `single_{index}` of the non-partial rows occur at most
once in the `GroupKey` column. -/
theorem countP_inr_enumFrom_le_one (rows : List KRow) (n i : Nat) :
    ((rows.enumFrom n).map fun p => gKey p.1 p.2).countP
      (fun x => decide (x = Sum.inr i)) ≤ 1 := by
  induction rows generalizing n with
  | nil => simp
  | cons r rest ih =>
    rw [List.enumFrom_cons, List.map_cons, List.countP_cons]
    by_cases hgk : gKey n r = Sum.inr i
    · have hin : i = n := by
        rw [gKey] at hgk
        split at hgk
        · cases hgk
        · cases hgk
          rfl
      rw [countP_inr_enumFrom_zero rest (n + 1) i (by omega)]
      simp [hgk]
    · have hd : (decide (gKey (n, r).1 (n, r).2 = Sum.inr i)) = false := decide_eq_false hgk
      rw [hd]
      simpa using ih (n + 1)

theorem snd_mem_of_mem_enumFrom {α : Type} (l : List α) (n : Nat) (p : Nat × α)
    (h : p ∈ l.enumFrom n) : p.2 ∈ l := by
  induction l generalizing n with
  | nil => cases h
  | cons a t ih =>
    rw [List.enumFrom_cons] at h
    rcases List.mem_cons.mp h with h | h
    · rw [h]
      exact List.mem_cons_self _ _
    · exact List.mem_cons_of_mem _ (ih (n + 1) h)

/-- A key shared by more than one row must be a partial-execution key, so
the `has_partial` early return is not taken. -/
theorem all_noP_false_of_mem_multi (rows : List KRow) (k : (String × Nat × String) ⊕ Nat)
    (hk : k ∈ multiEntryKeys rows) : rows.all (fun r => !(hasP r)) = false := by
  have hmem := List.mem_filter.mp hk
  have hcnt : 1 < (keyList rows).countP fun x => decide (x = k) := by
    have := hmem.2
    simpa using this
  rcases k with t | i
  · have hpos : 0 < (keyList rows).countP fun x => decide (x = Sum.inl t) := by omega
    have hex : ∃ x ∈ keyList rows, x = Sum.inl t := by
      rcases List.countP_pos_iff.mp hpos with ⟨x, hx, hdx⟩
      exact ⟨x, hx, by simpa using hdx⟩
    rcases hex with ⟨x, hx, rfl⟩
    rw [keyList_eq] at hx
    rcases List.mem_map.mp hx with ⟨p, hp, hgk⟩
    have hP : hasP p.2 = true := by
      rw [gKey] at hgk
      split at hgk
      · assumption
      · cases hgk
    cases hall : rows.all (fun r => !(hasP r)) with
    | false => rfl
    | true =>
      exfalso
      have := List.all_eq_true.mp hall p.2 (snd_mem_of_mem_enumFrom rows 0 p hp)
      rw [hP] at this
      cases this
  · exfalso
    have : ((rows.enumFrom 0).map fun p => gKey p.1 p.2).countP
        (fun x => decide (x = Sum.inr i)) ≤ 1 := countP_inr_enumFrom_le_one rows 0 i
    rw [keyList_eq] at hcnt
    have heq : rows.enum = rows.enumFrom 0 := rfl
    rw [heq] at hcnt
    omega

/-! ### Claim C3 — aggregation semantics -/

/-- Claim C3 counterexample: `pGain` and `pOtherDate` share the
instrument label `XYZ` (and both carry the partial-execution code `P`),
but differ in trade date, so `group_partial_executions` does NOT merge
them: the output still holds two rows of that label, not one.  The
grouping key is not the label alone. -/
theorem C3_counterexample :
    groupPartialExecutions [pGain, pOtherDate] = [pGain, pOtherDate] ∧
    pGain.beteckning = pOtherDate.beteckning ∧ pGain ≠ pOtherDate ∧
    ((groupPartialExecutions [pGain, pOtherDate]).countP fun r => r.beteckning == "XYZ") = 2 := by
  decide

/-- Claim C3 as amended: the aggregation step groups only rows whose code
field contains `P`, keyed by (side, trade date, label) under exact string
equality; every key shared by more than one row (necessarily `> 1`
members) yields exactly one merged output row whose quantity, proceeds,
cost, gain, loss, discrepancy (and broker PnL) are sums over the group,
whose side/date/code come verbatim from the group's first row in table
order, and which carries the merged-count annotation; rows whose key is
not shared pass through unchanged (hence unannotated). -/
theorem C3_group_merge_semantics (rows : List KRow) (k : (String × Nat × String) ⊕ Nat)
    (first : KRow) (rest : List KRow)
    (hk : k ∈ multiEntryKeys rows) (hg : groupMembers rows k = first :: rest) :
    1 < (first :: rest).length ∧
    (∃ r ∈ groupPartialExecutions rows,
       r.buySell = first.buySell ∧ r.tradeDate = first.tradeDate ∧
       r.notesCodes = first.notesCodes ∧ r.beteckning = first.beteckning ∧
       r.antal = ((first :: rest).map fun x => x.antal).sum ∧
       r.forsaljningspris = ((first :: rest).map fun x => x.forsaljningspris).sum ∧
       r.omkostnadsbelopp = ((first :: rest).map fun x => x.omkostnadsbelopp).sum ∧
       r.vinst = ((first :: rest).map fun x => x.vinst).sum ∧
       r.forlust = ((first :: rest).map fun x => x.forlust).sum ∧
       r.diffVsIbkr = qsum ((first :: rest).map fun x => x.diffVsIbkr) ∧
       r.groupInfo = some ("Grouped " ++ toString (first :: rest).length ++ " partial executions")) ∧
    (∀ p ∈ keyedRows rows, p.1 ∉ multiEntryKeys rows → p.2 ∈ groupPartialExecutions rows) := by
  have hall : rows.all (fun r => !(hasP r)) = false := all_noP_false_of_mem_multi rows k hk
  have hout : groupPartialExecutions rows =
      (((keyedRows rows).filter fun p => decide (p.1 ∉ multiEntryKeys rows)).map Prod.snd)
        ++ ((multiEntryKeys rows).map fun k => mergeGroup (groupMembers rows k)) := by
    rw [groupPartialExecutions, hall]
    rfl
  refine ⟨?_, ?_, ?_⟩
  · have hcnt : 1 < (keyList rows).countP fun x => decide (x = k) := by
      simpa using (List.mem_filter.mp hk).2
    have hlen := length_groupMembers rows k
    rw [hg] at hlen
    omega
  · refine ⟨mergeGroup (groupMembers rows k), ?_, ?_⟩
    · rw [hout]
      exact List.mem_append_right _ (List.mem_map_of_mem _ hk)
    · rw [hg]
      simp [mergeGroup]
  · intro p hp hnot
    have hmem : p ∈ (keyedRows rows).filter fun p => decide (p.1 ∉ multiEntryKeys rows) :=
      List.mem_filter.mpr ⟨hp, by simpa using hnot⟩
    rw [hout]
    exact List.mem_append_left _ (List.mem_map_of_mem _ hmem)

/-- Witness for claim C3's amended theorem: the key
`(SELL, day 1, XYZ)` is shared by `pGain` and `pLoss`, and the theorem
applies with the concrete group `[pGain, pLoss]`. -/
theorem C3_witness :
    1 < ([pGain, pLoss] : List KRow).length ∧
    (∃ r ∈ groupPartialExecutions [pGain, pLoss],
       r.buySell = pGain.buySell ∧ r.tradeDate = pGain.tradeDate ∧
       r.notesCodes = pGain.notesCodes ∧ r.beteckning = pGain.beteckning ∧
       r.antal = (([pGain, pLoss] : List KRow).map fun x => x.antal).sum ∧
       r.forsaljningspris = (([pGain, pLoss] : List KRow).map fun x => x.forsaljningspris).sum ∧
       r.omkostnadsbelopp = (([pGain, pLoss] : List KRow).map fun x => x.omkostnadsbelopp).sum ∧
       r.vinst = (([pGain, pLoss] : List KRow).map fun x => x.vinst).sum ∧
       r.forlust = (([pGain, pLoss] : List KRow).map fun x => x.forlust).sum ∧
       r.diffVsIbkr = qsum (([pGain, pLoss] : List KRow).map fun x => x.diffVsIbkr) ∧
       r.groupInfo = some ("Grouped " ++ toString ([pGain, pLoss] : List KRow).length
         ++ " partial executions")) ∧
    (∀ p ∈ keyedRows [pGain, pLoss], p.1 ∉ multiEntryKeys [pGain, pLoss] →
       p.2 ∈ groupPartialExecutions [pGain, pLoss]) :=
  C3_group_merge_semantics [pGain, pLoss] (Sum.inl ("SELL", 1, "XYZ")) pGain [pLoss]
    (by decide) (by decide)

/-! ### Claim C2 — per-trade currency conversion -/

/-- Claim C2 counterexample: converting the USD trade `rawUsd`
(cost basis −100, PnL 0.111) at rate 10.5 stores cost basis −1050 — the
sign is kept, not the absolute value 1050 the claim requires — and stores
PnL 0.111 × 10.5 = 1.1655 unrounded, not rounded to two decimals. -/
theorem C2_counterexample :
    convert_to_sek [rawUsd] usdRates = Except.ok [convertRow (mkRat 21 2) rawUsd] ∧
    (convertRow (mkRat 21 2) rawUsd).costBasis = -1050 ∧
    roundHalfEven (qmul (ratAbs rawUsd.costBasis) (mkRat 21 2)) = 1050 ∧
    (convertRow (mkRat 21 2) rawUsd).costBasis
      ≠ roundHalfEven (qmul (ratAbs rawUsd.costBasis) (mkRat 21 2)) ∧
    (convertRow (mkRat 21 2) rawUsd).ibkrPnL
      ≠ round2 (qmul rawUsd.fifoPnlRealized (mkRat 21 2)) := by decide

/-- Claim C2 as amended: whenever conversion succeeds, each output row is
computed from its input row and the row's FX rate as: commission =
round-half-even(|raw commission| × rate) (absolute value only here),
cost basis = round-half-even(raw cost basis × rate) and proceeds =
round-half-even(raw proceeds × rate) (signs preserved), all stored as
integers; and the broker-reported PnL = raw PnL × rate with no
rounding. -/
theorem C2_conversion_formulas (df : List RawTrade) (rates : List (String × ℚ))
    (out : List ConvTrade) (h : convert_to_sek df rates = Except.ok out)
    (i : Nat) (t : RawTrade) (ht : df.get? i = some t) :
    ∃ fx, fxLookup rates t.currencyPrimary = some fx ∧
      out.get? i = some { commission := roundHalfEven (qmul (ratAbs t.ibCommission) fx)
                          costBasis := roundHalfEven (qmul t.costBasis fx)
                          proceeds := roundHalfEven (qmul t.proceeds fx)
                          ibkrPnL := qmul t.fifoPnlRealized fx } := by
  rw [convert_to_sek] at h
  by_cases hm : missingCurrencies df rates = []
  · rw [if_pos hm] at h
    have hout : out = df.map fun t => convertRow ((fxLookup rates t.currencyPrimary).getD 0) t :=
      (Except.ok.inj h).symm
    have htmem : t ∈ df := List.get?_mem ht
    have hsome : (fxLookup rates t.currencyPrimary).isSome := by
      by_contra hns
      have hnone : fxLookup rates t.currencyPrimary = none := by
        cases hfl : fxLookup rates t.currencyPrimary
        · rfl
        · rw [hfl] at hns
          simp at hns
      have hin : t.currencyPrimary ∈ missingCurrencies df rates := by
        rw [missingCurrencies, mem_dedupFirst]
        exact List.mem_map_of_mem _ (List.mem_filter.mpr ⟨htmem, by simp [hnone]⟩)
      rw [hm] at hin
      cases hin
    rcases Option.isSome_iff_exists.mp hsome with ⟨fx, hfx⟩
    refine ⟨fx, hfx, ?_⟩
    rw [hout, List.get?_map, ht]
    simp [hfx, convertRow]
  · rw [if_neg hm] at h
    cases h

/-- Witness for claim C2's amended theorem at the one-row USD table. -/
theorem C2_witness :
    ∃ fx, fxLookup usdRates rawUsd.currencyPrimary = some fx ∧
      ([convertRow (mkRat 21 2) rawUsd] : List ConvTrade).get? 0
        = some { commission := roundHalfEven (qmul (ratAbs rawUsd.ibCommission) fx)
                 costBasis := roundHalfEven (qmul rawUsd.costBasis fx)
                 proceeds := roundHalfEven (qmul rawUsd.proceeds fx)
                 ibkrPnL := qmul rawUsd.fifoPnlRealized fx } :=
  C2_conversion_formulas [rawUsd] usdRates [convertRow (mkRat 21 2) rawUsd] rfl 0 rawUsd rfl

/-! ### Claim C8 — missing FX rates abort with full enumeration -/

/-- Claim C8: conversion succeeds (returns a converted table) exactly
when every trade's currency has a rate; and a currency code appears in
the raised error's list exactly when it has no rate and some trade uses
it — the single error enumerates every distinct missing code, and no
partially converted table exists in the error case (`Except` carries
either the error or the full table). -/
theorem C8_missing_rate_abort (df : List RawTrade) (rates : List (String × ℚ)) :
    ((∃ out, convert_to_sek df rates = Except.ok out) ↔
        ∀ t ∈ df, (fxLookup rates t.currencyPrimary).isSome = true) ∧
    (∀ c : String,
        (∃ l, convert_to_sek df rates = Except.error l ∧ c ∈ l) ↔
          (fxLookup rates c = none ∧ ∃ t ∈ df, t.currencyPrimary = c)) := by
  have hmc : ∀ c : String, c ∈ missingCurrencies df rates ↔
      (fxLookup rates c = none ∧ ∃ t ∈ df, t.currencyPrimary = c) := by
    intro c
    rw [missingCurrencies, mem_dedupFirst]
    constructor
    · intro hc
      rcases List.mem_map.mp hc with ⟨t, htf, rfl⟩
      rcases List.mem_filter.mp htf with ⟨htd, hnone⟩
      refine ⟨?_, t, htd, rfl⟩
      cases hfl : fxLookup rates t.currencyPrimary
      · rfl
      · rw [hfl] at hnone
        simp at hnone
    · rintro ⟨hnone, t, htd, rfl⟩
      exact List.mem_map_of_mem _ (List.mem_filter.mpr ⟨htd, by simp [hnone]⟩)
  by_cases hm : missingCurrencies df rates = []
  · refine ⟨⟨fun _ t htd => ?_,
      fun _ => ⟨df.map fun t => convertRow ((fxLookup rates t.currencyPrimary).getD 0) t,
        by rw [convert_to_sek]; simp [hm]⟩⟩, fun c => ⟨?_, ?_⟩⟩
    · by_contra hns
      have hnone : fxLookup rates t.currencyPrimary = none := by
        cases hfl : fxLookup rates t.currencyPrimary
        · rfl
        · rw [hfl] at hns
          simp at hns
      have hin : t.currencyPrimary ∈ missingCurrencies df rates :=
        (hmc _).mpr ⟨hnone, t, htd, rfl⟩
      rw [hm] at hin
      cases hin
    · rintro ⟨l, hl, hcl⟩
      rw [convert_to_sek] at hl
      simp [hm] at hl
    · rintro ⟨hnone, t, htd, rfl⟩
      have hin : t.currencyPrimary ∈ missingCurrencies df rates :=
        (hmc _).mpr ⟨hnone, t, htd, rfl⟩
      rw [hm] at hin
      cases hin
  · refine ⟨⟨?_, fun hall => absurd hall ?_⟩, fun c => ⟨?_, ?_⟩⟩
    · rintro ⟨out, hout⟩
      rw [convert_to_sek] at hout
      simp [hm] at hout
    · intro hall
      rcases List.exists_mem_of_ne_nil _ hm with ⟨c, hc⟩
      rcases (hmc c).mp hc with ⟨hnone, t, htd, rfl⟩
      have hs := hall t htd
      rw [hnone] at hs
      cases hs
    · rintro ⟨l, hl, hcl⟩
      rw [convert_to_sek] at hl
      simp [hm] at hl
      exact (hmc c).mp (hl ▸ hcl)
    · rintro ⟨hnone, t, htd, rfl⟩
      exact ⟨missingCurrencies df rates, by rw [convert_to_sek]; simp [hm],
        (hmc _).mpr ⟨hnone, t, htd, rfl⟩⟩

/-! ### Filing-generator lemmas (for claims C6, C7, C9) -/

theorem countP_flatMap {α β : Type} (l : List α) (f : α → List β) (p : β → Bool) :
    (l.flatMap f).countP p = (l.map fun a => (f a).countP p).sum := by
  induction l with
  | nil => rfl
  | cons a t ih => simp [List.flatMap_cons, List.countP_append, ih]

theorem sum_map_ones {α : Type} (l : List α) (g : α → Nat) (h : ∀ i ∈ l, g i = 1) :
    (l.map g).sum = l.length := by
  induction l with
  | nil => rfl
  | cons a t ih =>
    simp only [List.map_cons, List.sum_cons, List.length_cons, h a (List.mem_cons_self a t)]
    rw [ih fun i hi => h i (List.mem_cons_of_mem a hi)]
    omega

theorem countSlut_rowTagLines (pfx s : Nat) (rows : List SruRow) :
    (rowTagLines pfx s rows).countP (fun l => l == SruLine.blankettSlut) = 0 := by
  induction rows generalizing s with
  | nil => rfl
  | cons r rest ih => simp [rowTagLines, List.countP_cons, ih (s + 1)]

theorem countSlut_subtotals (t0 t1 t2 t3 : Nat) (rows : List SruRow) :
    (sectionSubtotals t0 t1 t2 t3 rows).countP (fun l => l == SruLine.blankettSlut) = 0 := rfl

theorem slice_isEmpty_false {α : Type} (l : List α) (m n : Nat) (hm : m < l.length)
    (hn : 0 < n) : ((l.drop m).take n).isEmpty = false := by
  cases hE : ((l.drop m).take n).isEmpty
  · rfl
  · exfalso
    have hnil : (l.drop m).take n = [] := List.isEmpty_iff.mp hE
    have hlen := congrArg List.length hnil
    rw [List.length_take, List.length_drop] at hlen
    simp at hlen
    omega

/-- Every blankett index below `num_blanketts` emits exactly one
`#BLANKETTSLUT` terminator: it either holds rows of one of the sections,
or is the mandatory first blankett of an empty result set. -/
theorem countSlut_blankettLines (inkomstar personnummer timestamp : String)
    (secA secD : List SruRow) (i : Nat)
    (h : i < numBlanketts secA.length secD.length) :
    (blankettLines inkomstar personnummer timestamp secA secD i).countP
      (fun l => l == SruLine.blankettSlut) = 1 := by
  have key : i * MAX_TRADES_PER_SECTION_A < secA.length ∨
      i * MAX_TRADES_PER_SECTION_D < secD.length ∨ i = 0 := by
    rw [numBlanketts, MAX_TRADES_PER_SECTION_A, MAX_TRADES_PER_SECTION_D] at h
    rw [MAX_TRADES_PER_SECTION_A, MAX_TRADES_PER_SECTION_D]
    omega
  have hcond : ((!((secA.drop (i * MAX_TRADES_PER_SECTION_A)).take
        MAX_TRADES_PER_SECTION_A).isEmpty ||
      !((secD.drop (i * MAX_TRADES_PER_SECTION_D)).take
        MAX_TRADES_PER_SECTION_D).isEmpty) || i == 0) = true := by
    rcases key with hk | hk | hk
    · rw [slice_isEmpty_false secA _ _ hk (by rw [MAX_TRADES_PER_SECTION_A]; omega)]
      simp
    · rw [slice_isEmpty_false secD _ _ hk (by rw [MAX_TRADES_PER_SECTION_D]; omega)]
      simp
    · simp [hk]
  rw [blankettLines]
  simp only [hcond, if_true]
  rw [List.countP_append, List.countP_append, List.countP_append]
  have hA : ∀ b : Bool, (if b then ([] : List SruLine)
      else rowTagLines 31 0 ((secA.drop (i * MAX_TRADES_PER_SECTION_A)).take
        MAX_TRADES_PER_SECTION_A) ++ sectionSubtotals 3300 3301 3304 3305
          ((secA.drop (i * MAX_TRADES_PER_SECTION_A)).take
            MAX_TRADES_PER_SECTION_A)).countP (fun l => l == SruLine.blankettSlut) = 0 := by
    intro b
    cases b
    · rw [if_neg (by simp)]
      rw [List.countP_append, countSlut_rowTagLines, countSlut_subtotals]
    · rfl
  have hD : ∀ b : Bool, (if b then ([] : List SruLine)
      else rowTagLines 34 1 ((secD.drop (i * MAX_TRADES_PER_SECTION_D)).take
        MAX_TRADES_PER_SECTION_D) ++ sectionSubtotals 3500 3501 3503 3504
          ((secD.drop (i * MAX_TRADES_PER_SECTION_D)).take
            MAX_TRADES_PER_SECTION_D)).countP (fun l => l == SruLine.blankettSlut) = 0 := by
    intro b
    cases b
    · rw [if_neg (by simp)]
      rw [List.countP_append, countSlut_rowTagLines, countSlut_subtotals]
    · rfl
  rw [hA, hD]
  rfl

/-- The number of forms in the emitted line stream equals the
`num_blanketts` computation on the (truncated) partitioned data. -/
theorem numForms_generate (inkomstar personnummer timestamp : String) (rs : List SruRow) :
    numFormsEmitted (generate_blankett_sru_lines inkomstar personnummer timestamp rs)
      = numBlanketts (sectionAData (truncData rs)).length (sectionDData (truncData rs)).length := by
  rw [numFormsEmitted, generate_blankett_sru_lines]
  rw [List.countP_append]
  rw [countP_flatMap]
  rw [sum_map_ones _ _ fun i hi =>
    countSlut_blankettLines inkomstar personnummer timestamp _ _ i (List.mem_range.mp hi)]
  rw [List.length_range]
  rfl

theorem rowIndicesOf_cons_row0 (pfx s : Nat) (v : String) (rest : List SruLine) :
    rowIndicesOf pfx (SruLine.uppgiftRow pfx s 0 v :: rest) = s :: rowIndicesOf pfx rest := by
  rw [rowIndicesOf, rowIndicesOf, List.filterMap_cons]
  norm_num

theorem rowIndicesOf_cons_rowF (pfx s f : Nat) (hf : f ≠ 0) (v : String)
    (rest : List SruLine) :
    rowIndicesOf pfx (SruLine.uppgiftRow pfx s f v :: rest) = rowIndicesOf pfx rest := by
  rw [rowIndicesOf, rowIndicesOf, List.filterMap_cons]
  simp [hf]

theorem rowIndicesOf_cons_rowNe (pfx pfx' s f : Nat) (h : pfx ≠ pfx') (v : String)
    (rest : List SruLine) :
    rowIndicesOf pfx' (SruLine.uppgiftRow pfx s f v :: rest) = rowIndicesOf pfx' rest := by
  rw [rowIndicesOf, rowIndicesOf, List.filterMap_cons]
  simp [h]

/-- The field-0 tag indices of a section's row block are the consecutive
integers starting at the block's start index. -/
theorem rowIndicesOf_rowTagLines_self (pfx s : Nat) (rows : List SruRow) :
    rowIndicesOf pfx (rowTagLines pfx s rows) = (List.range rows.length).map fun j => j + s := by
  induction rows generalizing s with
  | nil => rfl
  | cons r rest ih =>
    rw [rowTagLines]
    rw [rowIndicesOf_cons_row0]
    rw [rowIndicesOf_cons_rowF pfx s 1 (by omega), rowIndicesOf_cons_rowF pfx s 2 (by omega),
      rowIndicesOf_cons_rowF pfx s 3 (by omega), rowIndicesOf_cons_rowF pfx s 4 (by omega),
      rowIndicesOf_cons_rowF pfx s 5 (by omega)]
    rw [ih (s + 1)]
    rw [List.length_cons, List.range_succ_eq_map, List.map_cons, List.map_map]
    congr 1
    · omega
    · apply List.map_congr_left
      intro j _
      simp only [Function.comp_apply, Nat.succ_eq_add_one]
      omega

theorem rowIndicesOf_rowTagLines_ne (pfx pfx' s : Nat) (hne : pfx ≠ pfx')
    (rows : List SruRow) :
    rowIndicesOf pfx' (rowTagLines pfx s rows) = [] := by
  induction rows generalizing s with
  | nil => rfl
  | cons r rest ih =>
    rw [rowTagLines]
    rw [rowIndicesOf_cons_rowNe pfx pfx' s 0 hne, rowIndicesOf_cons_rowNe pfx pfx' s 1 hne,
      rowIndicesOf_cons_rowNe pfx pfx' s 2 hne, rowIndicesOf_cons_rowNe pfx pfx' s 3 hne,
      rowIndicesOf_cons_rowNe pfx pfx' s 4 hne, rowIndicesOf_cons_rowNe pfx pfx' s 5 hne]
    exact ih (s + 1)

theorem rowIndicesOf_subtotals (pfx t0 t1 t2 t3 : Nat) (rows : List SruRow) :
    rowIndicesOf pfx (sectionSubtotals t0 t1 t2 t3 rows) = [] := rfl

theorem rowIndicesOf_append (pfx : Nat) (l1 l2 : List SruLine) :
    rowIndicesOf pfx (l1 ++ l2) = rowIndicesOf pfx l1 ++ rowIndicesOf pfx l2 := by
  rw [rowIndicesOf, rowIndicesOf, rowIndicesOf, List.filterMap_append]

theorem rowIndicesOf_nil (pfx : Nat) : rowIndicesOf pfx [] = [] := rfl

/-! ### Claim C6 — number of emitted forms -/

/-- Claim C6 counterexample: a result set of 2008 standard rows has
`max(ceil(2008/9), ceil(0/7), 1) = 224`, but the generator truncates to
2000 rows first and emits only 223 forms. -/
theorem C6_counterexample :
    (sectionAData (List.replicate 2008 stdRow)).length = 2008 ∧
    numFormsEmitted (generate_blankett_sru_lines "2024" "190001011234" "20250101 120000"
      (List.replicate 2008 stdRow)) = 223 ∧
    max (max (((sectionAData (List.replicate 2008 stdRow)).length + 9 - 1) / 9)
        (((sectionDData (List.replicate 2008 stdRow)).length + 7 - 1) / 7)) 1 = 224 ∧
    (223 : Nat) ≠ 224 := by
  have hsecA : ∀ n : Nat, sectionAData (List.replicate n stdRow) = List.replicate n stdRow := by
    intro n
    rw [sectionAData, List.filter_replicate, if_pos (by decide)]
  have hsecD : ∀ n : Nat, sectionDData (List.replicate n stdRow) = [] := by
    intro n
    rw [sectionDData, List.filter_replicate, if_neg (by decide)]
  have htr : truncData (List.replicate 2008 stdRow) = List.replicate 2000 stdRow := by
    rw [truncData, if_pos (by rw [TEST_LIMIT, List.length_replicate]; omega)]
    rw [TEST_LIMIT, List.take_replicate]
    norm_num
  refine ⟨?_, ?_, ?_, by decide⟩
  · rw [hsecA, List.length_replicate]
  · rw [numForms_generate, htr, hsecA, hsecD, List.length_replicate]
    rw [numBlanketts, MAX_TRADES_PER_SECTION_A, MAX_TRADES_PER_SECTION_D]
    rfl
  · rw [hsecA, hsecD, List.length_replicate, List.length_nil]
    rfl

/-- Claim C6 as amended: for every result set of at most `TEST_LIMIT` =
2000 rows (so that the testing-mode truncation does not fire), the number
of forms emitted equals `max(ceil(countStandard/9), ceil(countDesignated/7), 1)`
with the ceilings written as `(n + k − 1) / k`; in particular the empty
result set yields one form (the witness instantiates this at `[]`). -/
theorem C6_forms_count (rs : List SruRow) (h : rs.length ≤ 2000)
    (inkomstar personnummer timestamp : String) :
    numFormsEmitted (generate_blankett_sru_lines inkomstar personnummer timestamp rs)
      = max (max (((sectionAData rs).length + 9 - 1) / 9)
          (((sectionDData rs).length + 7 - 1) / 7)) 1 := by
  have htr : truncData rs = rs := by
    rw [truncData, if_neg]
    rw [TEST_LIMIT]
    omega
  rw [numForms_generate, htr, numBlanketts, MAX_TRADES_PER_SECTION_A, MAX_TRADES_PER_SECTION_D]

/-- Witness for claim C6's amended theorem: the empty result set is below
the truncation limit and yields exactly one form
(`max(ceil(0/9), ceil(0/7), 1) = 1`). -/
theorem C6_witness :
    ([] : List SruRow).length ≤ 2000 ∧
    numFormsEmitted (generate_blankett_sru_lines "2024" "190001011234" "20250101 120000" [])
      = max (max (((sectionAData ([] : List SruRow)).length + 9 - 1) / 9)
          (((sectionDData ([] : List SruRow)).length + 7 - 1) / 7)) 1 :=
  ⟨by decide, C6_forms_count [] (by decide) "2024" "190001011234" "20250101 120000"⟩

/-! ### Claim C7 — row-index asymmetry within a form -/

/-- Claim C7: within every form (any blankett index `i`, any section
data), the field-0 row-tag indices of the standard section (prefix 31)
are `0, 1, …, k−1` for the `k` rows on that form — starting at 0 — while
those of the designated section (prefix 34) are `1, 2, …, k` — starting
at 1. -/
theorem C7_row_index_asymmetry (inkomstar personnummer timestamp : String)
    (secA secD : List SruRow) (i : Nat) :
    rowIndicesOf 31 (blankettLines inkomstar personnummer timestamp secA secD i)
        = List.range ((secA.drop (i * MAX_TRADES_PER_SECTION_A)).take
            MAX_TRADES_PER_SECTION_A).length ∧
      rowIndicesOf 34 (blankettLines inkomstar personnummer timestamp secA secD i)
        = (List.range ((secD.drop (i * MAX_TRADES_PER_SECTION_D)).take
            MAX_TRADES_PER_SECTION_D).length).map fun j => j + 1 := by
  simp only [blankettLines]
  by_cases hca : ((secA.drop (i * MAX_TRADES_PER_SECTION_A)).take
      MAX_TRADES_PER_SECTION_A).isEmpty = true
    <;> by_cases hcd : ((secD.drop (i * MAX_TRADES_PER_SECTION_D)).take
      MAX_TRADES_PER_SECTION_D).isEmpty = true
  · have hAnil := List.isEmpty_iff.mp hca
    have hDnil := List.isEmpty_iff.mp hcd
    by_cases hi : i = 0
    · rw [if_pos (by simp [hi]), if_pos hca, if_pos hcd]
      rw [hAnil, hDnil]
      simp only [rowIndicesOf_append]
      constructor <;> rfl
    · rw [if_neg (by simp [hca, hcd, hi])]
      rw [hAnil, hDnil, rowIndicesOf_nil]
      constructor <;> rfl
  · have hAnil := List.isEmpty_iff.mp hca
    rw [if_pos (by simp [hcd]), if_pos hca, if_neg hcd]
    rw [hAnil]
    simp only [rowIndicesOf_append]
    constructor
    · rw [rowIndicesOf_rowTagLines_ne 34 31 1 (by omega), rowIndicesOf_subtotals]
      simp [rowIndicesOf]
    · rw [rowIndicesOf_rowTagLines_self 34 1, rowIndicesOf_subtotals]
      simp [rowIndicesOf]
  · have hDnil := List.isEmpty_iff.mp hcd
    rw [if_pos (by simp [hca]), if_neg hca, if_pos hcd]
    rw [hDnil]
    simp only [rowIndicesOf_append]
    constructor
    · rw [rowIndicesOf_rowTagLines_self 31 0, rowIndicesOf_subtotals]
      simp [rowIndicesOf]
    · rw [rowIndicesOf_rowTagLines_ne 31 34 0 (by omega), rowIndicesOf_subtotals]
      rfl
  · rw [if_pos (by simp [hca]), if_neg hca, if_neg hcd]
    simp only [rowIndicesOf_append]
    constructor
    · rw [rowIndicesOf_rowTagLines_self 31 0, rowIndicesOf_rowTagLines_ne 34 31 1 (by omega),
        rowIndicesOf_subtotals, rowIndicesOf_subtotals]
      simp [rowIndicesOf]
    · rw [rowIndicesOf_rowTagLines_ne 31 34 0 (by omega), rowIndicesOf_rowTagLines_self 34 1,
        rowIndicesOf_subtotals, rowIndicesOf_subtotals]
      simp [rowIndicesOf]

/-! ### Claim C9 — 2000-row truncation -/

/-- Claim C9: the emitted line stream depends only on the first
`TEST_LIMIT` = 2000 rows of the result set — the generator's output on
any input equals its output on the input truncated to 2000 rows, so all
later rows are omitted from the file (the warning that accompanies the
truncation is logging, outside the embedding). -/
theorem C9_truncation_to_2000_rows (inkomstar personnummer timestamp : String)
    (rs : List SruRow) :
    generate_blankett_sru_lines inkomstar personnummer timestamp rs
      = generate_blankett_sru_lines inkomstar personnummer timestamp (rs.take TEST_LIMIT) := by
  have htr : truncData rs = truncData (rs.take TEST_LIMIT) := by
    rw [truncData, truncData]
    by_cases h : rs.length > TEST_LIMIT
    · rw [if_pos h, if_neg]
      rw [List.length_take]
      omega
    · rw [if_neg h, List.take_of_length_le (by omega), if_neg h]
  rw [generate_blankett_sru_lines, generate_blankett_sru_lines, htr]
